import Mathlib

/-!
# kms-iahwc.c : the presentation loop, the sync probe, the signal handler and
# the vsync frame counter

A shallow embedding of `src/kms-iahwc.c`.

* Every call the program makes into EGL, GBM, the hardware composer, libsync or
  libc is recorded as an `Event`; a run of the program is the list of events it
  produces, in program order.
* Everything such a call hands back (a handle, a descriptor, a return code) is
  chosen by the environment.  The outcomes of the calls of loop iteration `k`
  are collected in `env k : IterEnv`; nothing is assumed about them.
* `while (1)` is unrolled by a fuel argument counting iterations: `loop env k n st`
  runs at most `n` iterations starting with iteration number `k` in state `st`.
* `uint32_t i` wraps modulo `2 ^ 32`; `int64_t` arithmetic in `vsync_callback`
  wraps modulo `2 ^ 64` (`wrap64`).
-/

namespace KmsIahwc

/-! ## Data model -/

/-- A non-NULL `struct gbm_bo *`.  The NULL pointer is `none : Option Bo`. -/
abbrev Bo := Nat

/-- The EGL sync entry points probed by `egl_check` at the start of `run`. -/
inductive SyncFn
  | eglDupNativeFenceFDANDROID
  | eglCreateSyncKHR
  | eglDestroySyncKHR
  | eglWaitSyncKHR
  | eglClientWaitSyncKHR
  deriving DecidableEq, Repr

/-- The hardware-composer entry points fetched by `pfn_macro` inside `run`. -/
inductive IahwcFn
  | CREATE_LAYER
  | PRESENT_DISPLAY
  | LAYER_SET_BO
  | LAYER_SET_ACQUIRE_FENCE
  deriving DecidableEq, Repr

/-- One externally visible action of the program, with the values passed and
the values the environment handed back. -/
inductive Event
  /-- The call `iahwc_device->getFunctionPtr(iahwc_device, IAHWC_FUNC_..)` (lines 154-157) -/
  | getFunctionPtr (f : IahwcFn)
  /-- The call `egl_check(egl, f)` evaluated; `missing` is its value (lines 159-163) -/
  | eglCheck (f : SyncFn) (missing : Bool)
  /-- The call `printf("sync extensions not available")` (line 164) -/
  | printSyncUnavailable
  /-- The call `iahwc_create_layer(iahwc_device, 0, &layer)` returned `ret` (line 168) -/
  | createLayer (ret : Int)
  /-- The call `printf("unable to create layer")` (line 170) -/
  | printCreateLayerFailed
  /-- The call `exit(status)` -/
  | exit (status : Int)
  /-- The call `printf("iteration: %d", i)` (line 179) -/
  | printIteration (i : Nat)
  /-- The call `egl->draw(i)` (line 181) -/
  | draw (i : Nat)
  /-- The call `egl->eglCreateSyncKHR` with `fd` in its attribute list returned `fence`
  (line 141); `0` is the NULL handle -/
  | eglCreateSyncKHR (fd : Int) (fence : Nat)
  /-- a failed `assert` (lines 143, 187, 197): the program aborts -/
  | assertFailed
  /-- The call `eglSwapBuffers(egl->display, egl->surface)` (line 189) -/
  | eglSwapBuffers
  /-- The call `egl->eglDupNativeFenceFDANDROID(egl->display, fence)` returned `fd` (line 195) -/
  | eglDupNativeFenceFD (fence : Nat) (fd : Int)
  /-- The call `egl->eglDestroySyncKHR(egl->display, fence)` (line 196) -/
  | eglDestroySyncKHR (fence : Nat)
  /-- The call `gbm_surface_lock_front_buffer(gbm->surface)` returned `bo` (line 199) -/
  | lockFrontBuffer (bo : Option Bo)
  /-- The call `printf("Failed to lock frontbuffer")` (line 201) -/
  | printLockFailed
  /-- The call `iahwc_layer_set_bo(iahwc_device, 0, layer, bo)` (line 205) -/
  | layerSetBo (bo : Bo)
  /-- The call `iahwc_layer_set_acquire_fence(iahwc_device, 0, layer, fd)` (line 206) -/
  | layerSetAcquireFence (fd : Int)
  /-- The call `iahwc_present_display(iahwc_device, 0, &release_fence)` returned `ret`
  and left `release_fence` in the out-parameter (line 207) -/
  | presentDisplay (ret : Int) (release_fence : Int)
  /-- The call `printf("release fence is %d", release_fence)` (line 209) -/
  | printReleaseFence (release_fence : Int)
  /-- The call `sync_wait(fd, timeout)` returned `ret` (line 211) -/
  | syncWait (fd : Int) (timeout : Int) (ret : Int)
  /-- The call `printf("failed to wait on fence %d: %s", ..)` (line 213) -/
  | printWaitFailed (fd : Int)
  /-- The call `close(fd)` (line 216) -/
  | close (fd : Int)
  /-- The call `gbm_surface_release_buffer(gbm->surface, bo)` (line 220) -/
  | releaseBuffer (bo : Bo)
  /-- The call `ioctl(tty, KDSETMODE, KD_TEXT)` returned `ret` (line 61) -/
  | ioctlKdSetText (ret : Int)
  /-- The call `fprintf(stderr, "failed to set KD_TEXT mode on tty: %m")` (line 62) -/
  | printKdTextFailed
  /-- The call `ioctl(tty, VT_SETMODE, &mode)` with `mode.mode = VT_AUTO` returned `ret` (line 65) -/
  | ioctlVtSetAuto (ret : Int)
  /-- The call `fprintf(stderr, "could not reset vt handling")` (line 66) -/
  | printVtResetFailed
  deriving DecidableEq, Repr

/-- Local state of `run` that survives from one loop iteration to the next:
`struct gbm_bo *bo` (line 148) and `uint32_t i` (line 149). -/
structure LoopState where
  bo : Option Bo
  i : Nat
  deriving DecidableEq, Repr

/-- What the environment hands back during one loop iteration. -/
structure IterEnv where
  /-- result of `eglCreateSyncKHR`; `0` is NULL -/
  fence : Nat
  /-- result of `eglDupNativeFenceFDANDROID` -/
  dupFd : Int
  /-- result of `gbm_surface_lock_front_buffer`; `none` is NULL -/
  next_bo : Option Bo
  /-- return value of `iahwc_present_display` -/
  presentRet : Int
  /-- value found in `release_fence` after `iahwc_present_display` -/
  release_fence : Int
  /-- return value of `sync_wait`, consulted only when the call is made -/
  waitRet : Int
  deriving DecidableEq, Repr

/-- How one loop iteration ends. -/
inductive Step
  /-- the end of the loop body is reached -/
  | next (st : LoopState)
  /-- The statement `return v` out of `run` -/
  | returned (v : Int)
  /-- an `assert` failed -/
  | aborted
  deriving DecidableEq, Repr

/-- How a (fuel-bounded) run ends. -/
inductive Outcome
  /-- still inside `while (1)`, about to start an iteration in this state -/
  | running (st : LoopState)
  /-- The function `run` returned `v` -/
  | returned (v : Int)
  /-- an `assert` failed -/
  | aborted
  /-- The call `exit(status)` was made -/
  | exited (status : Int)
  deriving DecidableEq, Repr

/-! ## Constants of headers that are not part of the sources -/

/-- Modelled from the spec: `iahwc.h` is not among the sources.  The success
code of the compositor calls; a submission is "rejected" when
`iahwc_present_display` returns anything else. -/
def IAHWC_ERROR_NONE : Int := 0

/-- The value of `EGL_NO_NATIVE_FENCE_FD_ANDROID` (`eglext.h`). -/
def EGL_NO_NATIVE_FENCE_FD_ANDROID : Int := -1

/-- Availability of the five EGL sync entry points in `struct egl`
(`true`: the function pointer is non-NULL). -/
structure Egl where
  has : SyncFn → Bool

/-- The function `create_fence` (lines 135-145): the call to `eglCreateSyncKHR`
followed by `assert(fence)`.  Returns the events and the fence, `none` when the
assertion fails. -/
def create_fence (fd : Int) (fence : Nat) : List Event × Option Nat :=
  if fence = 0 then ([.eglCreateSyncKHR fd fence, .assertFailed], none)
  else ([.eglCreateSyncKHR fd fence], some fence)

/-- Lines 209-214: print the release fence, wait on it when it is `> 0`,
print a message when the wait returns `< 0`. -/
def waitRelease (release_fence waitRet : Int) : List Event :=
  .printReleaseFence release_fence ::
    (if release_fence > 0 then
      .syncWait release_fence (-1) waitRet ::
        (if waitRet < 0 then [.printWaitFailed release_fence] else [])
    else [])

/-- Lines 218-220: `if (bo) gbm_surface_release_buffer(gbm->surface, bo);` -/
def releaseLast : Option Bo → List Event
  | some bo => [.releaseBuffer bo]
  | none => []

/-- One execution of the body of `while (1)` (lines 175-221) from state `st`,
with the environment's answers `e`. -/
def iteration (st : LoopState) (e : IterEnv) : List Event × Step :=
  -- lines 179-181; `i++` on a `uint32_t`
  let head : List Event := [.printIteration st.i, .draw st.i]
  let i1 := (st.i + 1) % 2 ^ 32
  -- line 186-187
  match create_fence EGL_NO_NATIVE_FENCE_FD_ANDROID e.fence with
  | (cf, none) => (head ++ cf, .aborted)
  | (cf, some gpu_fence) =>
    -- lines 189-196
    let exported : List Event :=
      [.eglSwapBuffers, .eglDupNativeFenceFD gpu_fence e.dupFd, .eglDestroySyncKHR gpu_fence]
    let kms_in_fence_fd := e.dupFd
    -- line 197
    if kms_in_fence_fd = -1 then (head ++ cf ++ exported ++ [.assertFailed], .aborted)
    else
      -- lines 199-203
      match e.next_bo with
      | none =>
        (head ++ cf ++ exported ++ [.lockFrontBuffer none, .printLockFailed], .returned (-1))
      | some next_bo =>
        -- lines 205-207
        let submit : List Event :=
          [.lockFrontBuffer (some next_bo), .layerSetBo next_bo,
           .layerSetAcquireFence kms_in_fence_fd,
           .presentDisplay e.presentRet e.release_fence]
        -- lines 209-221
        (head ++ cf ++ exported ++ submit ++ waitRelease e.release_fence e.waitRet
            ++ [.close e.release_fence] ++ releaseLast st.bo,
          .next ⟨some next_bo, i1⟩)

/-- The loop `while (1)` of `run`: at most `fuel` iterations, the first of which
is iteration number `k` and starts in state `st`. -/
def loop (env : Nat → IterEnv) : Nat → Nat → LoopState → List Event × Outcome
  | _, 0, st => ([], .running st)
  | k, fuel + 1, st =>
    match iteration st (env k) with
    | (evs, .next st1) =>
      let r := loop env (k + 1) fuel st1
      (evs ++ r.1, r.2)
    | (evs, .returned v) => (evs, .returned v)
    | (evs, .aborted) => (evs, .aborted)

/-- The state in which `run` enters the loop: `bo = NULL`, `i = 0` (lines 148-149). -/
def initState : LoopState := ⟨none, 0⟩

/-- The events of the first `n` loop iterations of `run`. -/
def loopTrace (env : Nat → IterEnv) (n : Nat) : List Event := (loop env 0 n initState).1

/-- Where `run` stands after at most `n` loop iterations. -/
def loopOutcome (env : Nat → IterEnv) (n : Nat) : Outcome := (loop env 0 n initState).2

/-! ## The prologue of `run` -/

/-- The function `reset_vt` (lines 56-69); `r1`, `r2` are the results of the two
`ioctl` calls. -/
def reset_vt (r1 r2 : Int) : List Event :=
  [.ioctlKdSetText r1] ++ (if r1 ≠ 0 then [.printKdTextFailed] else [])
    ++ [.ioctlVtSetAuto r2] ++ (if r2 < 0 then [.printVtResetFailed] else [])
    ++ [.exit 0]

/-- The function `handle_signal` (lines 72-76): it ignores `sig`. -/
def handle_signal (_sig : Int) (r1 r2 : Int) : List Event := reset_vt r1 r2

/-- A run of the loop that is interrupted by a signal after its first `j`
events: the handler runs and the process exits inside it. -/
def cancelledRun (env : Nat → IterEnv) (n j : Nat) (sig r1 r2 : Int) : List Event :=
  (loopTrace env n).take j ++ handle_signal sig r1 r2

/-! ## `vsync_callback` -/

/-- Two's-complement wrap-around into the range of `int64_t`. -/
def wrap64 (x : Int) : Int := (x + 2 ^ 63) % 2 ^ 64 - 2 ^ 63

/-- The two `static int64_t` variables of `vsync_callback` (line 227). -/
structure VsyncState where
  count : Int
  base : Int
  deriving DecidableEq, Repr

/-- The initial values `count = 0, base = -1` (line 227). -/
def vsyncInit : VsyncState := ⟨0, -1⟩

/-- The function `vsync_callback` (lines 225-242).  Returns the new values of
the static variables, the number printed after `FPS:` if that line is printed,
and the return value. -/
def vsync_callback (s : VsyncState) (timestamp : Int) : VsyncState × Option Int × Int :=
  let base := if s.base = -1 then timestamp else s.base
  let diff := Int.tdiv (wrap64 (timestamp - base)) (1000 * 1000 * 1000)
  if diff > 1 then
    (⟨wrap64 (0 + 1), timestamp⟩, some s.count, 0)
  else
    (⟨wrap64 (s.count + 1), base⟩, none, 0)

/-- Deliver a sequence of timestamps to `vsync_callback`, starting from the
static variables `s`; returns, per call, the static variables after the call,
the report made and the value returned. -/
def vsyncRun : VsyncState → List Int → List (VsyncState × Option Int × Int)
  | _, [] => []
  | s, t :: ts =>
    let r := vsync_callback s t
    r :: vsyncRun r.1 ts

/-- The frame counter as the specification words it, after the first call:
`base` is the timestamp of the previous report or of the first call, `since`
the number of calls made since then.  A call reports `since` exactly when
`timestamp - base >= 2000000000`; a reporting call leaves `count = 1` and
`base = timestamp`; every call returns `0`. -/
def claimedFrom (base since : Int) : List Int → List (VsyncState × Option Int × Int)
  | [] => []
  | t :: ts =>
    if t - base ≥ 2000000000 then (⟨1, t⟩, some since, 0) :: claimedFrom t 1 ts
    else (⟨since + 1, base⟩, none, 0) :: claimedFrom base (since + 1) ts

/-- The frame counter as the specification words it: the first call makes its
timestamp the base and reports nothing. -/
def claimedVsync : List Int → List (VsyncState × Option Int × Int)
  | [] => []
  | t :: ts => (⟨1, t⟩, none, 0) :: claimedFrom t 1 ts

/-- Along the run described by `claimedFrom`: `timestamp - base` never leaves
the range of `int64_t`, and no reporting call carries the timestamp `-1`. -/
def admissibleFrom (base : Int) : List Int → Bool
  | [] => true
  | t :: ts =>
    decide (-2 ^ 63 ≤ t - base ∧ t - base < 2 ^ 63) &&
      (if t - base ≥ 2000000000 then decide (t ≠ -1) && admissibleFrom t ts
       else admissibleFrom base ts)

/-- A sequence of timestamps on which `timestamp - base` never overflows and on
which neither the first call nor a reporting call carries the timestamp `-1`. -/
def admissible : List Int → Bool
  | [] => true
  | t :: ts => decide (t ≠ -1) && admissibleFrom t ts

/-! ## Observations on traces -/

/-- The event is a call of `egl->draw`. -/
def Event.isDraw : Event → Bool
  | .draw _ => true
  | _ => false

/-- The event is a call of `iahwc_present_display`. -/
def Event.isPresent : Event → Bool
  | .presentDisplay _ _ => true
  | _ => false

/-- The event is a call of `gbm_surface_release_buffer`. -/
def Event.isRelease : Event → Bool
  | .releaseBuffer _ => true
  | _ => false

/-- The event is a call of `close`. -/
def Event.isClose : Event → Bool
  | .close _ => true
  | _ => false

/-- The event is a call of `sync_wait`. -/
def Event.isSyncWait : Event → Bool
  | .syncWait _ _ _ => true
  | _ => false

/-- Change of the number of in-flight buffers: a submission adds one, a
`gbm_surface_release_buffer` takes one away. -/
def inFlightDelta : Event → Int
  | .presentDisplay _ _ => 1
  | .releaseBuffer _ => -1
  | _ => 0

/-- The number of buffers submitted with `iahwc_present_display` and not yet
given back with `gbm_surface_release_buffer` at the end of a trace. -/
def inFlight (tr : List Event) : Int := (tr.map inFlightDelta).sum

/-- Change of the number of buffers being rendered into: `egl->draw` starts
rendering into a buffer, its submission ends the rendering stage. -/
def renderingDelta : Event → Int
  | .draw _ => 1
  | .presentDisplay _ _ => -1
  | _ => 0

/-- The number of buffers drawn into and not yet submitted at the end of a trace. -/
def rendering (tr : List Event) : Int := (tr.map renderingDelta).sum

/-- The same environment, except that every submission is accepted. -/
def accepting (env : Nat → IterEnv) : Nat → IterEnv :=
  fun k => ⟨(env k).fence, (env k).dupFd, (env k).next_bo, IAHWC_ERROR_NONE,
    (env k).release_fence, (env k).waitRet⟩

/-- Forget the value returned by `iahwc_present_display`. -/
def forgetPresentRet : Event → Event
  | .presentDisplay _ rf => .presentDisplay IAHWC_ERROR_NONE rf
  | ev => ev

/-! ## Sample environments -/

/-- Every call succeeds, except that every `sync_wait` fails with `-1`.
Iteration `k` gets fence handle `k + 1`, acquire descriptor `10 + k`, buffer
`100 + k` and release descriptor `5 + k`. -/
def envWaitFails : Nat → IterEnv :=
  fun k => ⟨k + 1, 10 + k, some (100 + k), 0, 5 + k, -1⟩

/-- Every call succeeds, except that the compositor rejects every submission
with return value `1`. -/
def envRejects : Nat → IterEnv :=
  fun k => ⟨k + 1, 10 + k, some (100 + k), 1, 5 + k, 0⟩

/-- Every call succeeds. -/
def envGood : Nat → IterEnv :=
  fun k => ⟨k + 1, 10 + k, some (100 + k), 0, 5 + k, 0⟩

/-- The very first `gbm_surface_lock_front_buffer` returns NULL. -/
def envLockFails : Nat → IterEnv :=
  fun k => ⟨k + 1, 10 + k, none, 0, 5 + k, 0⟩

/-- A platform with all five sync entry points. -/
def eglFull : Egl := ⟨fun _ => true⟩

/-- A platform that lacks `eglDestroySyncKHR`. -/
def eglNoDestroy : Egl := ⟨fun f => decide (f ≠ .eglDestroySyncKHR)⟩

/-! ## Auxiliary definitions used in the proofs -/

/-- The largest sum of the weights `w` over a beginning of the list (at least
`0`, the sum over the empty beginning). -/
def maxPrefixSum (w : Event → Int) : List Event → Int
  | [] => 0
  | x :: l => if w x + maxPrefixSum w l < 0 then 0 else w x + maxPrefixSum w l

/-- The number of buffers the loop state holds: `1` when `bo` is not NULL. -/
def held (st : LoopState) : Int := if st.bo = none then 0 else 1

/-- The event is a `sync_wait` that returned success (a value `>= 0`): the
fence was observed signaled. -/
def Event.isSuccessfulWait : Event → Bool
  | .syncWait _ _ ret => decide (0 ≤ ret)
  | _ => false

/-- The event is one of the calls of `reset_vt`: an `ioctl` on the terminal or `exit`. -/
def Event.isVtOrExit : Event → Bool
  | .ioctlKdSetText _ => true
  | .ioctlVtSetAuto _ => true
  | .exit _ => true
  | _ => false

theorem append_eq_split {α : Type} {l1 l2 pre post : List α} {x : α}
    (h : l1 ++ l2 = pre ++ x :: post) :
    (∃ post1, l1 = pre ++ x :: post1 ∧ post = post1 ++ l2) ∨
    (∃ pre2, pre = l1 ++ pre2 ∧ l2 = pre2 ++ x :: post) := by
  rcases List.append_eq_append_iff.1 h with ⟨a, ha, hb⟩ | ⟨c, hc, hd⟩
  · exact Or.inr ⟨a, ha, hb⟩
  · cases c with
    | nil =>
      refine Or.inr ⟨[], ?_, ?_⟩
      · simpa using hc.symm
      · simpa using hd.symm
    | cons y c =>
      simp only [List.cons_append, List.cons.injEq] at hd
      obtain ⟨rfl, rfl⟩ := hd
      exact Or.inl ⟨c, hc, rfl⟩

theorem split_unique {α : Type} (p : α → Bool) :
    ∀ {l1 l2 pre post : List α} {x y : α}, l1 ++ y :: l2 = pre ++ x :: post →
      p x = true → (∀ a ∈ l1, p a = false) → (∀ a ∈ l2, p a = false) →
      pre = l1 ∧ x = y ∧ post = l2 := by
  intro l1
  induction l1 with
  | nil =>
    intro l2 pre post x y h hx _ h2
    cases pre with
    | nil =>
      simp only [List.nil_append, List.cons.injEq] at h
      exact ⟨rfl, h.1.symm, h.2.symm⟩
    | cons z pre =>
      simp only [List.nil_append, List.cons_append, List.cons.injEq] at h
      have hmem : x ∈ l2 := by rw [h.2]; simp
      rw [h2 x hmem] at hx
      exact absurd hx (by decide)
  | cons a l1 ih =>
    intro l2 pre post x y h hx h1 h2
    cases pre with
    | nil =>
      simp only [List.nil_append, List.cons_append, List.cons.injEq] at h
      have ha := h1 a (by simp)
      rw [h.1, hx] at ha
      exact absurd ha (by decide)
    | cons z pre =>
      simp only [List.cons_append, List.cons.injEq] at h
      obtain ⟨hz, hrest⟩ := h
      obtain ⟨e1, e2, e3⟩ := ih hrest hx (fun b hb => h1 b (by simp [hb])) h2
      exact ⟨by rw [e1, hz], e2, e3⟩

/-! ## The loop body, case by case -/

/-- The four ways through the body of `while (1)`. -/
theorem iteration_cases (st : LoopState) (e : IterEnv) :
    (e.fence = 0 ∧ iteration st e =
      ([.printIteration st.i, .draw st.i, .eglCreateSyncKHR (-1) e.fence, .assertFailed],
        .aborted)) ∨
    (e.fence ≠ 0 ∧ e.dupFd = -1 ∧ iteration st e =
      ([.printIteration st.i, .draw st.i, .eglCreateSyncKHR (-1) e.fence, .eglSwapBuffers,
        .eglDupNativeFenceFD e.fence e.dupFd, .eglDestroySyncKHR e.fence, .assertFailed],
        .aborted)) ∨
    (e.fence ≠ 0 ∧ e.dupFd ≠ -1 ∧ e.next_bo = none ∧ iteration st e =
      ([.printIteration st.i, .draw st.i, .eglCreateSyncKHR (-1) e.fence, .eglSwapBuffers,
        .eglDupNativeFenceFD e.fence e.dupFd, .eglDestroySyncKHR e.fence,
        .lockFrontBuffer none, .printLockFailed], .returned (-1))) ∨
    (∃ b, e.fence ≠ 0 ∧ e.dupFd ≠ -1 ∧ e.next_bo = some b ∧ iteration st e =
      ([.printIteration st.i, .draw st.i, .eglCreateSyncKHR (-1) e.fence, .eglSwapBuffers,
        .eglDupNativeFenceFD e.fence e.dupFd, .eglDestroySyncKHR e.fence,
        .lockFrontBuffer (some b), .layerSetBo b, .layerSetAcquireFence e.dupFd]
        ++ .presentDisplay e.presentRet e.release_fence ::
          (waitRelease e.release_fence e.waitRet ++ .close e.release_fence :: releaseLast st.bo),
        .next ⟨some b, (st.i + 1) % 2 ^ 32⟩)) := by
  by_cases hf : e.fence = 0
  · left
    exact ⟨hf, by simp [iteration, create_fence, hf, EGL_NO_NATIVE_FENCE_FD_ANDROID]⟩
  · right
    by_cases hd : e.dupFd = -1
    · left
      exact ⟨hf, hd, by simp [iteration, create_fence, hf, hd, EGL_NO_NATIVE_FENCE_FD_ANDROID]⟩
    · right
      cases hb : e.next_bo with
      | none =>
        left
        exact ⟨hf, hd, rfl,
          by simp [iteration, create_fence, hf, hd, hb, EGL_NO_NATIVE_FENCE_FD_ANDROID]⟩
      | some b =>
        right
        exact ⟨b, hf, hd, rfl,
          by simp [iteration, create_fence, hf, hd, hb, EGL_NO_NATIVE_FENCE_FD_ANDROID]⟩

/-- One more iteration, unfolded. -/
theorem loop_succ (env : Nat → IterEnv) (k n : Nat) (st : LoopState) :
    loop env k (n + 1) st =
      match iteration st (env k) with
      | (evs, .next st1) => (evs ++ (loop env (k + 1) n st1).1, (loop env (k + 1) n st1).2)
      | (evs, .returned v) => (evs, .returned v)
      | (evs, .aborted) => (evs, .aborted) := by
  rw [loop]

/-- The loop goes on after an iteration that reaches the end of the body. -/
theorem loop_succ_next {env : Nat → IterEnv} {k n : Nat} {st st1 : LoopState}
    {evs : List Event} (h : iteration st (env k) = (evs, .next st1)) :
    loop env k (n + 1) st = (evs ++ (loop env (k + 1) n st1).1, (loop env (k + 1) n st1).2) := by
  rw [loop_succ, h]

/-- The loop ends with an iteration that does not reach the end of the body. -/
theorem loop_succ_stop {env : Nat → IterEnv} {k n : Nat} {st : LoopState}
    {evs : List Event} {s : Step} (h : iteration st (env k) = (evs, s))
    (hs : ∀ st1, s ≠ .next st1) :
    (loop env k (n + 1) st).1 = evs ∧
      ∀ st1, (loop env k (n + 1) st).2 ≠ .running st1 := by
  rw [loop_succ, h]
  cases s with
  | next st1 => exact absurd rfl (hs st1)
  | returned v => exact ⟨rfl, fun _ hh => by cases hh⟩
  | aborted => exact ⟨rfl, fun _ hh => by cases hh⟩

/-! ## General facts about the loop -/

/-- Every event of a run of the loop comes from some iteration; an invariant
of the history and the loop state holds where that iteration starts. -/
theorem loop_event_origin (env : Nat → IterEnv) (Inv : List Event → LoopState → Prop)
    (hstep : ∀ hist st k evs st1, Inv hist st → iteration st (env k) = (evs, .next st1) →
      Inv (hist ++ evs) st1) :
    ∀ n k st hist, Inv hist st → ∀ pre x post, (loop env k n st).1 = pre ++ x :: post →
      ∃ hist1 st1 j pre1 post1, Inv hist1 st1 ∧ hist ++ pre = hist1 ++ pre1 ∧
        (iteration st1 (env j)).1 = pre1 ++ x :: post1 := by
  intro n
  induction n with
  | zero =>
    intro k st hist _ pre x post h
    simp [loop] at h
  | succ n ih =>
    intro k st hist hinv pre x post h
    rcases hit : iteration st (env k) with ⟨evs, s⟩
    cases s with
    | next st1 =>
      rw [loop_succ_next hit] at h
      rcases append_eq_split h with ⟨post1, h1, _⟩ | ⟨pre2, h1, h2⟩
      · exact ⟨hist, st, k, pre, post1, hinv, rfl, by rw [hit]; exact h1⟩
      · obtain ⟨hist1, st2, j, pre1, post1, hi, he, hx⟩ :=
          ih (k + 1) st1 (hist ++ evs) (hstep hist st k evs st1 hinv hit) pre2 x post h2
        refine ⟨hist1, st2, j, pre1, post1, hi, ?_, hx⟩
        rw [h1, ← List.append_assoc]
        exact he
    | returned v =>
      have h1 := (loop_succ_stop (n := n) hit (fun _ hh => by cases hh)).1
      rw [h1] at h
      exact ⟨hist, st, k, pre, post, hinv, rfl, by rw [hit]; exact h⟩
    | aborted =>
      have h1 := (loop_succ_stop (n := n) hit (fun _ hh => by cases hh)).1
      rw [h1] at h
      exact ⟨hist, st, k, pre, post, hinv, rfl, by rw [hit]; exact h⟩

/-- A property of every event of every iteration holds of every event of the loop. -/
theorem loop_all (env : Nat → IterEnv) (p : Event → Bool)
    (h : ∀ st e, ∀ a ∈ (iteration st e).1, p a = true) :
    ∀ n k st, ∀ a ∈ (loop env k n st).1, p a = true := by
  intro n k st a ha
  obtain ⟨pre, post, hsplit⟩ := List.append_of_mem ha
  obtain ⟨_, st1, j, pre1, post1, _, _, hx⟩ :=
    loop_event_origin env (fun _ _ => True) (fun _ _ _ _ _ _ _ => trivial) n k st [] trivial
      pre a post hsplit
  exact h st1 (env j) a (by rw [hx]; simp)

theorem inFlight_append (a b : List Event) : inFlight (a ++ b) = inFlight a + inFlight b := by
  simp [inFlight]

theorem rendering_append (a b : List Event) :
    rendering (a ++ b) = rendering a + rendering b := by
  simp [rendering]

/-- The sum over any beginning of a list is at most `maxPrefixSum`. -/
theorem sum_take_le_maxPrefixSum (w : Event → Int) :
    ∀ (l : List Event) (j : Nat), ((l.take j).map w).sum ≤ maxPrefixSum w l := by
  intro l
  induction l with
  | nil => intro j; simp [maxPrefixSum]
  | cons x l ih =>
    intro j
    cases j with
    | zero =>
      simp only [List.take_zero, List.map_nil, List.sum_nil, maxPrefixSum]
      split <;> omega
    | succ j =>
      have := ih j
      simp only [List.take_succ_cons, List.map_cons, List.sum_cons, maxPrefixSum]
      split <;> omega

/-! ## Where submissions, waits and releases sit inside an iteration -/

theorem tail_not_present (rf w : Int) (bo : Option Bo) :
    ∀ a ∈ waitRelease rf w ++ .close rf :: releaseLast bo, Event.isPresent a = false := by
  intro a ha
  cases bo <;> simp only [waitRelease, releaseLast] at ha <;> split_ifs at ha <;>
    simp at ha <;> casesm* _ ∨ _ <;> subst_vars <;> rfl

theorem body_not_release (rf w : Int) :
    ∀ a ∈ waitRelease rf w ++ [.close rf], Event.isRelease a = false := by
  intro a ha
  simp only [waitRelease] at ha
  split_ifs at ha <;> simp at ha <;> casesm* _ ∨ _ <;> subst_vars <;> rfl

/-- A submission found in the events of an iteration sits right behind the
nine calls from `printf("iteration ..")` to `iahwc_layer_set_acquire_fence`. -/
theorem iteration_present_split {st : LoopState} {e : IterEnv} {pre1 post1 : List Event}
    {rc rf : Int} (h : (iteration st e).1 = pre1 ++ .presentDisplay rc rf :: post1) :
    ∃ b, e.next_bo = some b ∧
      pre1 = [.printIteration st.i, .draw st.i, .eglCreateSyncKHR (-1) e.fence, .eglSwapBuffers,
        .eglDupNativeFenceFD e.fence e.dupFd, .eglDestroySyncKHR e.fence,
        .lockFrontBuffer (some b), .layerSetBo b, .layerSetAcquireFence e.dupFd] ∧
      rc = e.presentRet ∧ rf = e.release_fence ∧
      post1 = waitRelease e.release_fence e.waitRet ++ .close e.release_fence :: releaseLast st.bo := by
  rcases iteration_cases st e with ⟨_, h1⟩ | ⟨_, _, h1⟩ | ⟨_, _, _, h1⟩ | ⟨b, _, _, hb, h1⟩
  · rw [h1] at h
    have hm : Event.presentDisplay rc rf ∈ pre1 ++ .presentDisplay rc rf :: post1 := by simp
    rw [← h] at hm
    simp at hm
  · rw [h1] at h
    have hm : Event.presentDisplay rc rf ∈ pre1 ++ .presentDisplay rc rf :: post1 := by simp
    rw [← h] at hm
    simp at hm
  · rw [h1] at h
    have hm : Event.presentDisplay rc rf ∈ pre1 ++ .presentDisplay rc rf :: post1 := by simp
    rw [← h] at hm
    simp at hm
  · rw [h1] at h
    obtain ⟨e1, e2, e3⟩ := split_unique Event.isPresent h rfl
      (by intro a ha; simp at ha; casesm* _ ∨ _ <;> subst_vars <;> rfl)
      (tail_not_present _ _ _)
    simp only [Event.presentDisplay.injEq] at e2
    exact ⟨b, hb, e1, e2.1, e2.2, e3⟩

/-- A `gbm_surface_release_buffer` found in the events of an iteration is the
last call of that iteration and gives back the buffer held in `bo`. -/
theorem iteration_release_split {st : LoopState} {e : IterEnv} {pre1 post1 : List Event}
    {b : Bo} (h : (iteration st e).1 = pre1 ++ .releaseBuffer b :: post1) :
    st.bo = some b ∧ post1 = [] := by
  rcases iteration_cases st e with ⟨_, h1⟩ | ⟨_, _, h1⟩ | ⟨_, _, _, h1⟩ | ⟨b1, _, _, _, h1⟩
  · rw [h1] at h
    have hm : Event.releaseBuffer b ∈ pre1 ++ .releaseBuffer b :: post1 := by simp
    rw [← h] at hm
    simp at hm
  · rw [h1] at h
    have hm : Event.releaseBuffer b ∈ pre1 ++ .releaseBuffer b :: post1 := by simp
    rw [← h] at hm
    simp at hm
  · rw [h1] at h
    have hm : Event.releaseBuffer b ∈ pre1 ++ .releaseBuffer b :: post1 := by simp
    rw [← h] at hm
    simp at hm
  · rw [h1] at h
    cases hbo : st.bo with
    | none =>
      rw [hbo] at h
      have hm : Event.releaseBuffer b ∈ pre1 ++ .releaseBuffer b :: post1 := by simp
      rw [← h] at hm
      have hw := body_not_release (e.release_fence) (e.waitRet) (.releaseBuffer b)
      simp only [releaseLast, List.mem_append, List.mem_cons, List.mem_singleton,
        List.not_mem_nil, or_false] at hm hw
      rcases hm with hm | hm | hm | hm
      · simp at hm
      · simp at hm
      · exact absurd (hw (Or.inl hm)) (by simp [Event.isRelease])
      · simp at hm
    | some b0 =>
      rw [hbo] at h
      have h2 : ([.printIteration st.i, .draw st.i, .eglCreateSyncKHR (-1) e.fence,
          .eglSwapBuffers, .eglDupNativeFenceFD e.fence e.dupFd, .eglDestroySyncKHR e.fence,
          .lockFrontBuffer (some b1), .layerSetBo b1, .layerSetAcquireFence e.dupFd,
          .presentDisplay e.presentRet e.release_fence]
          ++ (waitRelease e.release_fence e.waitRet ++ [.close e.release_fence]))
          ++ .releaseBuffer b0 :: [] = pre1 ++ .releaseBuffer b :: post1 := by
        rw [← h]
        simp [releaseLast]
      obtain ⟨_, e2, e3⟩ := split_unique Event.isRelease h2 rfl
        (by
          intro a ha
          rw [List.mem_append] at ha
          rcases ha with ha | ha
          · simp at ha
            casesm* _ ∨ _ <;> subst_vars <;> rfl
          · exact body_not_release _ _ a ha)
        (by simp)
      simp only [Event.releaseBuffer.injEq] at e2
      exact ⟨by rw [e2], e3⟩

/-! ## C7: the submission follows the draw call and the render fence -/

/-- C7. Every `iahwc_present_display` in a run of the loop is immediately
preceded, in this order, by the calls of its own iteration: `printf`, `draw`,
the creation of the GPU fence, `eglSwapBuffers`, the export of the acquire
descriptor `fd` from that very fence, the destruction of the fence, the lock
of buffer `b`, `iahwc_layer_set_bo` with `b` and
`iahwc_layer_set_acquire_fence` with that same `fd`. -/
theorem submission_follows_render_fence (env : Nat → IterEnv) (n : Nat)
    (pre post : List Event) (rc rf : Int)
    (h : loopTrace env n = pre ++ .presentDisplay rc rf :: post) :
    ∃ p0 i fence fd b,
      pre = p0 ++ [.printIteration i, .draw i,
        .eglCreateSyncKHR EGL_NO_NATIVE_FENCE_FD_ANDROID fence, .eglSwapBuffers,
        .eglDupNativeFenceFD fence fd, .eglDestroySyncKHR fence,
        .lockFrontBuffer (some b), .layerSetBo b, .layerSetAcquireFence fd] := by
  obtain ⟨hist1, st1, j, pre1, post1, _, he, hx⟩ :=
    loop_event_origin env (fun _ _ => True) (fun _ _ _ _ _ _ _ => trivial) n 0 initState []
      trivial pre _ post h
  obtain ⟨b, _, hp, _, _, _⟩ := iteration_present_split hx
  refine ⟨hist1, st1.i, (env j).fence, (env j).dupFd, b, ?_⟩
  rw [List.nil_append] at he
  rw [he, hp]
  rfl

/-- C7, at a concrete run: the first submission of a run in which every call succeeds. -/
theorem submission_follows_render_fence_witness :
    loopTrace envGood 1 = (loopTrace envGood 1).take 9 ++
      .presentDisplay 0 5 :: (loopTrace envGood 1).drop 10 ∧
    ∃ p0 i fence fd b,
      (loopTrace envGood 1).take 9 = p0 ++ [.printIteration i, .draw i,
        .eglCreateSyncKHR EGL_NO_NATIVE_FENCE_FD_ANDROID fence, .eglSwapBuffers,
        .eglDupNativeFenceFD fence fd, .eglDestroySyncKHR fence,
        .lockFrontBuffer (some b), .layerSetBo b, .layerSetAcquireFence fd] :=
  ⟨by decide, submission_follows_render_fence envGood 1 ((loopTrace envGood 1).take 9)
    ((loopTrace envGood 1).drop 10) 0 5 (by decide)⟩

/-! ## C1: what has happened before a buffer is given back -/

/-- C1 (amended). Whenever the loop gives a buffer back with
`gbm_surface_release_buffer`, that buffer was submitted earlier in the run, and
since that submission the loop has gone through the wait block on the release
descriptor `rf` the submission returned (a `sync_wait` exactly when `rf > 0`,
whatever it returned) and has closed `rf`. -/
theorem release_after_wait_block (env : Nat → IterEnv) (n : Nat)
    (pre post : List Event) (b : Bo)
    (h : loopTrace env n = pre ++ .releaseBuffer b :: post) :
    ∃ p1 fd rc rf w p3,
      pre = p1 ++ [.layerSetBo b, .layerSetAcquireFence fd, .presentDisplay rc rf]
        ++ waitRelease rf w ++ .close rf :: p3 := by
  obtain ⟨hist1, st1, j, pre1, post1, hinv, he, hx⟩ :=
    loop_event_origin env
      (fun hist st => ∀ b, st.bo = some b → ∃ p1 fd rc rf w p3,
        hist = p1 ++ [.layerSetBo b, .layerSetAcquireFence fd, .presentDisplay rc rf]
          ++ waitRelease rf w ++ .close rf :: p3)
      (by
        intro hist st k evs st1 _ hit b hb
        rcases iteration_cases st (env k) with ⟨_, h1⟩ | ⟨_, _, h1⟩ | ⟨_, _, _, h1⟩ |
          ⟨b1, _, _, _, h1⟩
        · rw [h1] at hit; simp at hit
        · rw [h1] at hit; simp at hit
        · rw [h1] at hit; simp at hit
        · rw [h1] at hit
          simp only [Prod.mk.injEq, Step.next.injEq] at hit
          obtain ⟨hevs, hst⟩ := hit
          subst hst
          simp only [Option.some.injEq] at hb
          subst hb
          refine ⟨hist ++ [.printIteration st.i, .draw st.i,
            .eglCreateSyncKHR (-1) (env k).fence, .eglSwapBuffers,
            .eglDupNativeFenceFD (env k).fence (env k).dupFd,
            .eglDestroySyncKHR (env k).fence, .lockFrontBuffer (some b1)],
            (env k).dupFd, (env k).presentRet, (env k).release_fence, (env k).waitRet,
            releaseLast st.bo, ?_⟩
          rw [← hevs]
          simp)
      n 0 initState [] (by intro b hb; simp [initState] at hb) pre _ post h
  obtain ⟨hbo, _⟩ := iteration_release_split hx
  obtain ⟨p1, fd, rc, rf, w, p3, hh⟩ := hinv b hbo
  refine ⟨p1, fd, rc, rf, w, p3 ++ pre1, ?_⟩
  rw [List.nil_append] at he
  rw [he, hh]
  simp

/-- C1 (amended), at a concrete run: the release of buffer `100` in the second
iteration of a run in which every `sync_wait` fails. -/
theorem release_after_wait_block_witness :
    loopTrace envWaitFails 2 = (loopTrace envWaitFails 2).take 28 ++ .releaseBuffer 100 :: [] ∧
    ∃ p1 fd rc rf w p3,
      (loopTrace envWaitFails 2).take 28 =
        p1 ++ [.layerSetBo 100, .layerSetAcquireFence fd, .presentDisplay rc rf]
          ++ waitRelease rf w ++ .close rf :: p3 :=
  ⟨by decide, release_after_wait_block envWaitFails 2 ((loopTrace envWaitFails 2).take 28)
    [] 100 (by decide)⟩

/-- C1 as stated fails: in a run in which every `sync_wait` returns `-1`, the
second iteration gives buffer `100` back although no wait on the release
descriptor of its submission (nor any other wait) has returned success. -/
theorem release_without_signal_counterexample :
    ¬ (∀ pre b post, loopTrace envWaitFails 2 = pre ++ .releaseBuffer b :: post →
        ∃ p1 fd rc rf p2 w,
          pre = p1 ++ [.layerSetBo b, .layerSetAcquireFence fd, .presentDisplay rc rf] ++ p2 ∧
          Event.syncWait rf (-1) w ∈ p2 ∧ 0 ≤ w) := by
  intro h
  obtain ⟨p1, fd, rc, rf, p2, w, hpre, hmem, hw⟩ :=
    h ((loopTrace envWaitFails 2).take 28) 100 [] (by decide)
  have hall : (loopTrace envWaitFails 2).all (fun a => !a.isSuccessfulWait) = true := by decide
  have hin : Event.syncWait rf (-1) w ∈ loopTrace envWaitFails 2 :=
    List.mem_of_mem_take (by rw [hpre]; simp [hmem])
  have hno := List.all_eq_true.1 hall _ hin
  simp [Event.isSuccessfulWait] at hno
  omega

/-! ## C2: the value returned by `iahwc_present_display` -/

theorem iteration_accepting (st : LoopState) (env : Nat → IterEnv) (k : Nat) :
    iteration st (accepting env k) =
      ((iteration st (env k)).1.map forgetPresentRet, (iteration st (env k)).2) := by
  rcases iteration_cases st (env k) with ⟨hf, h1⟩ | ⟨hf, hd, h1⟩ | ⟨hf, hd, hb, h1⟩ |
    ⟨b, hf, hd, hb, h1⟩
  · rw [h1]
    simp [iteration, create_fence, accepting, hf, forgetPresentRet,
      EGL_NO_NATIVE_FENCE_FD_ANDROID]
  · rw [h1]
    simp [iteration, create_fence, accepting, hf, hd, forgetPresentRet,
      EGL_NO_NATIVE_FENCE_FD_ANDROID]
  · rw [h1]
    simp [iteration, create_fence, accepting, hf, hd, hb, forgetPresentRet,
      EGL_NO_NATIVE_FENCE_FD_ANDROID]
  · rw [h1]
    cases hbo : st.bo <;>
      simp [iteration, create_fence, accepting, hf, hd, hb, hbo, waitRelease, releaseLast,
        EGL_NO_NATIVE_FENCE_FD_ANDROID, forgetPresentRet] <;>
      split_ifs <;> simp [forgetPresentRet, hbo]

theorem loop_accepting (env : Nat → IterEnv) :
    ∀ n k st, loop (accepting env) k n st =
      ((loop env k n st).1.map forgetPresentRet, (loop env k n st).2) := by
  intro n
  induction n with
  | zero => intro k st; simp [loop]
  | succ n ih =>
    intro k st
    rcases hit : iteration st (env k) with ⟨evs, r⟩
    have ha := iteration_accepting st env k
    rw [hit] at ha
    cases r with
    | next st1 =>
      rw [loop_succ_next hit, loop_succ_next ha, ih (k + 1) st1]
      simp
    | returned v => rw [loop_succ, loop_succ, hit, ha]
    | aborted => rw [loop_succ, loop_succ, hit, ha]

/-- C2 (amended). The loop does not inspect the value returned by
`iahwc_present_display`: a run in which submissions are rejected makes the same
calls in the same order, and ends or goes on in the same way, as the run in
which the same submissions are accepted; only the returned value differs. -/
theorem present_result_not_inspected (env : Nat → IterEnv) (n : Nat) :
    loopOutcome env n = loopOutcome (accepting env) n ∧
    (loopTrace env n).map forgetPresentRet = loopTrace (accepting env) n := by
  simp [loopOutcome, loopTrace, loop_accepting env n 0 initState]

/-- C2 as stated fails: the compositor rejects the first submission (return
value `1`), and the loop goes on: it draws, presents and gives buffer `100`,
the rejected one, back. -/
theorem rejected_submission_counterexample :
    ¬ (∀ pre rc rf post, loopTrace envRejects 2 = pre ++ .presentDisplay rc rf :: post →
        rc ≠ IAHWC_ERROR_NONE →
        ∀ ev ∈ post, ev.isRelease = false ∧ ev.isDraw = false ∧ ev.isPresent = false) := by
  intro h
  have h1 := h ((loopTrace envRejects 2).take 9) 1 5 ((loopTrace envRejects 2).drop 10)
    (by decide) (by decide) (.releaseBuffer 100) (by decide)
  simp [Event.isRelease] at h1

/-! ## C3: a failed wait on the release fence -/

/-- C3 (amended). When `sync_wait` on the release fence fails, the iteration
prints the failure, closes the descriptor, gives the previously held buffer
back and the loop goes on with the next iteration; the failed `sync_wait` is
the only wait of the iteration. -/
theorem failed_wait_is_logged_and_loop_goes_on (env : Nat → IterEnv) (k n : Nat)
    (st : LoopState) (b : Bo)
    (hf : (env k).fence ≠ 0) (hd : (env k).dupFd ≠ -1) (hb : (env k).next_bo = some b)
    (hr : 0 < (env k).release_fence) (hw : (env k).waitRet < 0) :
    loop env k (n + 1) st =
      ([.printIteration st.i, .draw st.i,
        .eglCreateSyncKHR EGL_NO_NATIVE_FENCE_FD_ANDROID (env k).fence, .eglSwapBuffers,
        .eglDupNativeFenceFD (env k).fence (env k).dupFd, .eglDestroySyncKHR (env k).fence,
        .lockFrontBuffer (some b), .layerSetBo b, .layerSetAcquireFence (env k).dupFd,
        .presentDisplay (env k).presentRet (env k).release_fence,
        .printReleaseFence (env k).release_fence,
        .syncWait (env k).release_fence (-1) (env k).waitRet,
        .printWaitFailed (env k).release_fence,
        .close (env k).release_fence]
        ++ releaseLast st.bo
        ++ (loop env (k + 1) n ⟨some b, (st.i + 1) % 2 ^ 32⟩).1,
       (loop env (k + 1) n ⟨some b, (st.i + 1) % 2 ^ 32⟩).2) := by
  have hit : iteration st (env k) =
      ([.printIteration st.i, .draw st.i,
        .eglCreateSyncKHR EGL_NO_NATIVE_FENCE_FD_ANDROID (env k).fence, .eglSwapBuffers,
        .eglDupNativeFenceFD (env k).fence (env k).dupFd, .eglDestroySyncKHR (env k).fence,
        .lockFrontBuffer (some b), .layerSetBo b, .layerSetAcquireFence (env k).dupFd,
        .presentDisplay (env k).presentRet (env k).release_fence,
        .printReleaseFence (env k).release_fence,
        .syncWait (env k).release_fence (-1) (env k).waitRet,
        .printWaitFailed (env k).release_fence,
        .close (env k).release_fence]
        ++ releaseLast st.bo, .next ⟨some b, (st.i + 1) % 2 ^ 32⟩) := by
    simp [iteration, create_fence, waitRelease, hf, hd, hb, hr, hw]
  rw [loop_succ_next hit]

/-- C3 (amended), at a concrete run: the first iteration of a run in which
every `sync_wait` fails is followed by a second iteration. -/
theorem failed_wait_is_logged_and_loop_goes_on_witness :
    ((envWaitFails 0).fence ≠ 0 ∧ (envWaitFails 0).dupFd ≠ -1 ∧
      (envWaitFails 0).next_bo = some 100 ∧ 0 < (envWaitFails 0).release_fence ∧
      (envWaitFails 0).waitRet < 0) ∧
    loop envWaitFails 0 (1 + 1) initState =
      ([.printIteration initState.i, .draw initState.i,
        .eglCreateSyncKHR EGL_NO_NATIVE_FENCE_FD_ANDROID (envWaitFails 0).fence, .eglSwapBuffers,
        .eglDupNativeFenceFD (envWaitFails 0).fence (envWaitFails 0).dupFd,
        .eglDestroySyncKHR (envWaitFails 0).fence,
        .lockFrontBuffer (some 100), .layerSetBo 100,
        .layerSetAcquireFence (envWaitFails 0).dupFd,
        .presentDisplay (envWaitFails 0).presentRet (envWaitFails 0).release_fence,
        .printReleaseFence (envWaitFails 0).release_fence,
        .syncWait (envWaitFails 0).release_fence (-1) (envWaitFails 0).waitRet,
        .printWaitFailed (envWaitFails 0).release_fence,
        .close (envWaitFails 0).release_fence]
        ++ releaseLast initState.bo
        ++ (loop envWaitFails (0 + 1) 1 ⟨some 100, (initState.i + 1) % 2 ^ 32⟩).1,
       (loop envWaitFails (0 + 1) 1 ⟨some 100, (initState.i + 1) % 2 ^ 32⟩).2) :=
  ⟨by decide, failed_wait_is_logged_and_loop_goes_on envWaitFails 0 1 initState 100
    (by decide) (by decide) (by decide) (by decide) (by decide)⟩

/-- C3 as stated fails: the first `sync_wait` returns `-1`, and the loop
starts another iteration (`draw 1`) afterwards. -/
theorem failed_wait_counterexample :
    ¬ (∀ pre fd t w post, loopTrace envWaitFails 2 = pre ++ .syncWait fd t w :: post →
        w < 0 →
        ∀ ev ∈ post, ev.isDraw = false ∧ ∀ t1 w1, ev ≠ .syncWait fd t1 w1) := by
  intro h
  have h1 := h ((loopTrace envWaitFails 2).take 11) 5 (-1) (-1)
    ((loopTrace envWaitFails 2).drop 12) (by decide) (by decide) (.draw 1) (by decide)
  simp [Event.isDraw] at h1

/-! ## C4: the acquire descriptor on the early exit -/

/-- C4, the code at the failing input: when the first
`gbm_surface_lock_front_buffer` returns NULL, `run` leaves the loop with
`return -1` right after the lock; the acquire descriptor `10` exported by
`eglDupNativeFenceFDANDROID` has neither been bound to the layer nor closed. -/
theorem acquire_fd_leaks_on_lock_failure (n : Nat) :
    loop envLockFails 0 (n + 1) initState =
      ([.printIteration 0, .draw 0, .eglCreateSyncKHR (-1) 1, .eglSwapBuffers,
        .eglDupNativeFenceFD 1 10, .eglDestroySyncKHR 1, .lockFrontBuffer none,
        .printLockFailed], .returned (-1)) ∧
    Event.eglDupNativeFenceFD 1 10 ∈ (loop envLockFails 0 (n + 1) initState).1 ∧
    Event.layerSetAcquireFence 10 ∉ (loop envLockFails 0 (n + 1) initState).1 ∧
    Event.close 10 ∉ (loop envLockFails 0 (n + 1) initState).1 := by
  have h : loop envLockFails 0 (n + 1) initState =
      ([.printIteration 0, .draw 0, .eglCreateSyncKHR (-1) 1, .eglSwapBuffers,
        .eglDupNativeFenceFD 1 10, .eglDestroySyncKHR 1, .lockFrontBuffer none,
        .printLockFailed], .returned (-1)) := by
    rw [loop_succ]
    rfl
  rw [h]
  exact ⟨rfl, by decide, by decide, by decide⟩

/-! ## C5: buffers being rendered into and buffers in flight -/

theorem iteration_counts (st : LoopState) (e : IterEnv) :
    maxPrefixSum inFlightDelta (iteration st e).1 ≤ 1 ∧
    maxPrefixSum renderingDelta (iteration st e).1 ≤ 1 ∧
    (∀ st1, (iteration st e).2 = .next st1 →
      inFlight (iteration st e).1 + held st = held st1 ∧ rendering (iteration st e).1 = 0) ∧
    ((∀ st1, (iteration st e).2 ≠ .next st1) → inFlight (iteration st e).1 = 0) := by
  rcases iteration_cases st e with ⟨_, h1⟩ | ⟨_, _, h1⟩ | ⟨_, _, _, h1⟩ | ⟨b, _, _, _, h1⟩
  · rw [h1]
    simp [maxPrefixSum, inFlightDelta, renderingDelta, inFlight]
  · rw [h1]
    simp [maxPrefixSum, inFlightDelta, renderingDelta, inFlight]
  · rw [h1]
    simp [maxPrefixSum, inFlightDelta, renderingDelta, inFlight]
  · rw [h1]
    cases hbo : st.bo <;>
      simp only [waitRelease, releaseLast] <;> split_ifs <;>
      simp [maxPrefixSum, inFlightDelta, renderingDelta, inFlight, rendering, held, hbo]

theorem loop_counts (env : Nat → IterEnv) :
    ∀ n k st j,
      rendering ((loop env k n st).1.take j) ≤ 1 ∧
      inFlight ((loop env k n st).1.take j) + held st ≤ 2 ∧
      inFlight (loop env k n st).1 + held st ≤ 1 := by
  have hheld : ∀ s : LoopState, held s ≤ 1 := by
    intro s; unfold held; split <;> omega
  intro n
  induction n with
  | zero =>
    intro k st j
    have := hheld st
    simp [loop, rendering, inFlight]
    omega
  | succ n ih =>
    intro k st j
    obtain ⟨c1, c2, c3, c4⟩ := iteration_counts st (env k)
    have p1 := sum_take_le_maxPrefixSum inFlightDelta (iteration st (env k)).1 j
    have p2 := sum_take_le_maxPrefixSum renderingDelta (iteration st (env k)).1 j
    have hst := hheld st
    rcases hit : iteration st (env k) with ⟨evs, r⟩
    rw [hit] at c1 c2 c3 c4 p1 p2
    simp only at c1 c2 c3 c4 p1 p2
    cases r with
    | next st1 =>
      obtain ⟨d1, d2⟩ := c3 st1 rfl
      obtain ⟨i1, i2, i3⟩ := ih (k + 1) st1 (j - evs.length)
      rw [loop_succ_next hit]
      simp only [List.take_append_eq_append_take, inFlight_append, rendering_append]
      by_cases hj : j ≤ evs.length
      · have h0 : j - evs.length = 0 := by omega
        rw [h0] at i1 i2 ⊢
        simp only [List.take_zero] at i1 i2 ⊢
        have e1 : rendering ([] : List Event) = 0 := rfl
        have e2 : inFlight ([] : List Event) = 0 := rfl
        rw [e1, e2]
        change (List.map renderingDelta (List.take j evs)).sum + 0 ≤ 1 ∧
          (List.map inFlightDelta (List.take j evs)).sum + 0 + held st ≤ 2 ∧ _
        omega
      · have hfull : List.take j evs = evs := List.take_of_length_le (by omega)
        rw [hfull]
        omega
    | returned v =>
      have h0 := c4 (fun _ hh => by cases hh)
      rw [(loop_succ_stop hit (fun _ hh => by cases hh)).1]
      change (List.map renderingDelta (List.take j evs)).sum ≤ 1 ∧
        (List.map inFlightDelta (List.take j evs)).sum + held st ≤ 2 ∧ _
      omega
    | aborted =>
      have h0 := c4 (fun _ hh => by cases hh)
      rw [(loop_succ_stop hit (fun _ hh => by cases hh)).1]
      change (List.map renderingDelta (List.take j evs)).sum ≤ 1 ∧
        (List.map inFlightDelta (List.take j evs)).sum + held st ≤ 2 ∧ _
      omega

/-- C5 (amended). At every point of every run of the loop (after any number
`j` of its calls) at most one buffer is being rendered into and at most two
buffers are in flight; whenever an iteration has been completed, at most one
buffer is in flight. -/
theorem in_flight_at_most_two (env : Nat → IterEnv) (n j : Nat) :
    rendering ((loopTrace env n).take j) ≤ 1 ∧
    inFlight ((loopTrace env n).take j) ≤ 2 ∧
    inFlight (loopTrace env n) ≤ 1 := by
  obtain ⟨h1, h2, h3⟩ := loop_counts env n 0 initState j
  have h0 : held initState = 0 := rfl
  rw [h0] at h2 h3
  exact ⟨h1, by simpa [loopTrace] using h2, by simpa [loopTrace] using h3⟩

/-- C5 as stated fails: right after the second submission of a run in which
every call succeeds, the first buffer has not been given back yet and two
buffers are in flight. -/
theorem in_flight_counterexample :
    ¬ (∀ j, inFlight ((loopTrace envGood 2).take j) ≤ 1) := by
  intro h
  have h1 := h 23
  revert h1
  decide

/-! ## C6: which buffer is given back -/

theorem iteration_no_vt_call (st : LoopState) (e : IterEnv) :
    ∀ a ∈ (iteration st e).1, (!Event.isVtOrExit a) = true := by
  intro a ha
  rcases iteration_cases st e with ⟨_, h1⟩ | ⟨_, _, h1⟩ | ⟨_, _, _, h1⟩ | ⟨b, _, _, _, h1⟩
  · rw [h1] at ha; simp at ha; casesm* _ ∨ _ <;> subst_vars <;> rfl
  · rw [h1] at ha; simp at ha; casesm* _ ∨ _ <;> subst_vars <;> rfl
  · rw [h1] at ha; simp at ha; casesm* _ ∨ _ <;> subst_vars <;> rfl
  · rw [h1] at ha
    cases hbo : st.bo <;> rw [hbo] at ha <;> simp only [waitRelease, releaseLast] at ha <;>
      split_ifs at ha <;> simp at ha <;> casesm* _ ∨ _ <;> subst_vars <;> rfl

/-- C9 (amended). When a signal interrupts the loop after any number `j` of
its calls, `handle_signal` resets the terminal and ends the process: the only
`ioctl` and `exit` calls of the interrupted run are `KDSETMODE` to `KD_TEXT`,
`VT_SETMODE` to `VT_AUTO` and `exit(0)`, in this order, and `exit(0)` is the
last call of the run.  No submission and no draw follows the signal, and the
handler closes no descriptor and gives no buffer back. -/
theorem signal_handler_only_resets_vt (env : Nat → IterEnv) (n j : Nat) (sig r1 r2 : Int) :
    (cancelledRun env n j sig r1 r2).filter Event.isVtOrExit =
      [.ioctlKdSetText r1, .ioctlVtSetAuto r2, .exit 0] ∧
    (cancelledRun env n j sig r1 r2).getLast? = some (.exit 0) ∧
    (cancelledRun env n j sig r1 r2).filter Event.isPresent =
      ((loopTrace env n).take j).filter Event.isPresent ∧
    (cancelledRun env n j sig r1 r2).filter Event.isDraw =
      ((loopTrace env n).take j).filter Event.isDraw ∧
    (cancelledRun env n j sig r1 r2).filter Event.isClose =
      ((loopTrace env n).take j).filter Event.isClose ∧
    (cancelledRun env n j sig r1 r2).filter Event.isRelease =
      ((loopTrace env n).take j).filter Event.isRelease := by
  have hloop : ((loopTrace env n).take j).filter Event.isVtOrExit = [] := by
    rw [List.filter_eq_nil_iff]
    intro a ha
    have := loop_all env (fun a => !Event.isVtOrExit a) iteration_no_vt_call n 0
      initState a (List.mem_of_mem_take ha)
    simpa using this
  refine ⟨?_, ?_⟩
  · simp only [cancelledRun, handle_signal, reset_vt, List.filter_append, hloop]
    split_ifs <;> simp [Event.isVtOrExit]
  · simp only [cancelledRun, handle_signal, reset_vt]
    split_ifs <;>
      simp [Event.isPresent, Event.isDraw, Event.isClose, Event.isRelease,
        List.getLast?_append]

/-- C9 as stated fails: `SIGINT` arrives right after the first submission of a
run in which every call succeeds; at `exit(0)` the release descriptor `5` has
not been closed and buffer `100` has not been given back. -/
theorem cancellation_counterexample :
    ¬ ((∀ rc rf, Event.presentDisplay rc rf ∈ cancelledRun envGood 1 10 2 0 0 →
          Event.close rf ∈ cancelledRun envGood 1 10 2 0 0) ∧
       (∀ b, Event.lockFrontBuffer (some b) ∈ cancelledRun envGood 1 10 2 0 0 →
          Event.releaseBuffer b ∈ cancelledRun envGood 1 10 2 0 0)) := by
  intro h
  have h1 := h.1 0 5 (by decide)
  revert h1
  decide

/-! ## C10: the frame counter in `vsync_callback` -/

theorem wrap64_of_fits {x : Int} (h1 : -2 ^ 63 ≤ x) (h2 : x < 2 ^ 63) : wrap64 x = x := by
  unfold wrap64
  omega

/-- The truncated quotient by `10 ^ 9` exceeds `1` exactly from `2 * 10 ^ 9` on. -/
theorem tdiv_billion_gt_one (d : Int) :
    Int.tdiv d (1000 * 1000 * 1000) > 1 ↔ d ≥ 2000000000 := by
  by_cases hd : 0 ≤ d
  · rw [Int.tdiv_eq_ediv hd (by norm_num)]
    omega
  · have h0 : 0 ≤ Int.tdiv (-d) (1000 * 1000 * 1000) :=
      Int.tdiv_nonneg (by omega) (by norm_num)
    rw [Int.neg_tdiv] at h0
    omega

theorem vsyncRun_eq_claimedFrom (ts : List Int) :
    ∀ (base since : Int), base ≠ -1 → 0 ≤ since → since + ts.length < 2 ^ 63 →
      admissibleFrom base ts = true →
      vsyncRun ⟨since, base⟩ ts = claimedFrom base since ts := by
  induction ts with
  | nil => intro base since _ _ _ _; rfl
  | cons t ts ih =>
    intro base since hb h0 hlen hadm
    simp only [admissibleFrom, Bool.and_eq_true, decide_eq_true_eq] at hadm
    obtain ⟨⟨hlo, hhi⟩, hrest⟩ := hadm
    simp only [List.length_cons, Nat.cast_add, Nat.cast_one] at hlen
    have hw : wrap64 (t - base) = t - base := wrap64_of_fits hlo hhi
    have hc : wrap64 (since + 1) = since + 1 := wrap64_of_fits (by omega) (by omega)
    have h1 : wrap64 (0 + 1) = 1 := by unfold wrap64; norm_num
    by_cases hr : t - base ≥ 2000000000
    · rw [if_pos hr] at hrest
      simp only [Bool.and_eq_true, decide_eq_true_eq] at hrest
      have hd : Int.tdiv (t - base) (1000 * 1000 * 1000) > 1 := (tdiv_billion_gt_one _).2 hr
      simp only [vsyncRun, vsync_callback, if_neg hb, hw, if_pos hd, h1, claimedFrom, if_pos hr]
      rw [ih t 1 hrest.1 (by norm_num) (by omega) hrest.2]
    · rw [if_neg hr] at hrest
      have hd : ¬ Int.tdiv (t - base) (1000 * 1000 * 1000) > 1 :=
        fun h => hr ((tdiv_billion_gt_one _).1 h)
      simp only [vsyncRun, vsync_callback, if_neg hb, hw, if_neg hd, hc, claimedFrom, if_neg hr]
      rw [ih base (since + 1) hb (by omega) (by omega) hrest]

/-- C10 (amended). For every sequence of timestamps, delivered from
`count = 0`, `base = -1`, on which `timestamp - base` does not overflow and on
which neither the first call nor a reporting call carries the timestamp `-1`
(and which is shorter than `2 ^ 63` calls): call by call, `vsync_callback`
reports, leaves `count` and `base`, and returns what the specification says. -/
theorem vsync_callback_reports (ts : List Int) (hadm : admissible ts = true)
    (hlen : ts.length < 2 ^ 63) :
    vsyncRun vsyncInit ts = claimedVsync ts := by
  cases ts with
  | nil => rfl
  | cons t ts =>
    simp only [admissible, Bool.and_eq_true, decide_eq_true_eq] at hadm
    have h1 : wrap64 (0 + 1) = 1 := by unfold wrap64; norm_num
    have hd : ¬ Int.tdiv (wrap64 (t - t)) (1000 * 1000 * 1000) > 1 := by
      rw [sub_self]
      have : wrap64 0 = 0 := by unfold wrap64; norm_num
      rw [this]
      decide
    simp only [List.length_cons] at hlen
    simp only [vsyncRun, vsync_callback, vsyncInit, if_true, if_neg hd, h1, claimedVsync]
    rw [vsyncRun_eq_claimedFrom ts t 1 hadm.1 (by norm_num) (by push_cast; omega) hadm.2]

/-- C10 (amended), at a concrete sequence with two reports. -/
theorem vsync_callback_reports_witness :
    (admissible [5, 6, 2000000005, 2000000006, 4000000005] = true ∧
      [(5 : Int), 6, 2000000005, 2000000006, 4000000005].length < 2 ^ 63) ∧
    vsyncRun vsyncInit [5, 6, 2000000005, 2000000006, 4000000005] =
      claimedVsync [5, 6, 2000000005, 2000000006, 4000000005] :=
  ⟨⟨by decide, by decide⟩,
    vsync_callback_reports [5, 6, 2000000005, 2000000006, 4000000005] (by decide) (by decide)⟩

/-- C10 as stated fails: the first timestamp is `-1`, the value that marks
`base` as unset.  The second call comes `3000000001` ns after the first, with
no overflow, yet `vsync_callback` takes it for a first call and reports
nothing. -/
theorem vsync_sentinel_counterexample :
    admissibleFrom (-1) [3000000000] = true ∧
    (3000000000 : Int) - (-1) ≥ 2000000000 ∧
    vsyncRun vsyncInit [-1, 3000000000] =
      [(⟨1, -1⟩, none, 0), (⟨2, 3000000000⟩, none, 0)] ∧
    vsyncRun vsyncInit [-1, 3000000000] ≠ claimedVsync [-1, 3000000000] := by
  decide

end KmsIahwc
